import Mathlib

/-!
Verification of the order/position lifecycle and fill-matching engine of
`open-binancian-futures`. Prices, quantities and balances are embedded as
rationals (`ℚ`); millisecond timestamps as integers (`ℤ`). Python's
`round(x, n)` (round-half-to-even at `n` decimal digits) and `int(x)`
(truncation toward zero) are modelled explicitly.
-/

namespace OpenBinancian

/-- Order types, from `open_binancian_futures/types.py` (`OrderType`). -/
inductive OrderType
  | LIMIT
  | STOP_LIMIT
  | TAKE_PROFIT_LIMIT
  | MARKET
  | STOP_MARKET
  | TAKE_PROFIT_MARKET
  | TRAILING_STOP_MARKET
  | LIQUIDATION
  deriving DecidableEq

/-- Position sides, from `open_binancian_futures/types.py` (`PositionSide`). -/
inductive PositionSide
  | BOTH
  | LONG
  | SHORT
  | BUY
  | SELL
  deriving DecidableEq

/-- A resting order, from `models.py` (`Order`). `gtd` is the optional
good-till-date expiry timestamp in milliseconds. -/
structure Order where
  symbol : String
  order_id : ℕ
  type : OrderType
  side : PositionSide
  price : ℚ
  quantity : ℚ
  gtd : Option ℤ
  deriving DecidableEq

/-- `Order.is_type`: membership of the order's type in the given list
(Python variadic `self.type in args`). -/
def Order.is_type (o : Order) (ts : List OrderType) : Bool :=
  decide (o.type ∈ ts)

/-- `Order.is_expired`: `self.gtd < time_ms if self.gtd else False`.
A falsy `gtd` (absent or zero) is never expired. -/
def Order.is_expired (o : Order) (time_ms : ℤ) : Bool :=
  match o.gtd with
  | none => false
  | some g => if g = 0 then false else decide (g < time_ms)

/-- `Order.is_filled(high, low)`: the fill-trigger predicate of `models.py`
(identical to `Order.is_filled_` in `src/main/model/order/order.py`). -/
def Order.is_filled (o : Order) (high low : ℚ) : Bool :=
  if o.is_type [OrderType.MARKET] then
    true
  else if o.is_type [OrderType.LIMIT] then
    if o.side = PositionSide.BUY then decide (o.price ≥ low) else decide (o.price ≤ high)
  else if o.is_type [OrderType.TAKE_PROFIT_MARKET] then
    if o.side = PositionSide.SELL then decide (o.price ≤ high) else decide (o.price ≥ low)
  else if o.is_type [OrderType.STOP_MARKET] then
    if o.side = PositionSide.SELL then decide (o.price ≥ low) else decide (o.price ≤ high)
  else
    false

/-- Floor to 2 fractional digits: `math.floor(x * 100) / 100`. -/
def floor2 (x : ℚ) : ℚ := (Int.floor (x * 100) : ℚ) / 100

/-- Account balance, from `models.py` (`Balance`). The single field mirrors
`self._balance`. -/
structure Balance where
  balance : ℚ

/-- `Balance.__init__`: floors the initial amount to cent precision. -/
def Balance.mk_init (b : ℚ) : Balance := ⟨floor2 b⟩

/-- `Balance.add_pnl`: `self._balance += pnl` (no re-flooring in the source). -/
def Balance.add_pnl (b : Balance) (pnl : ℚ) : Balance := ⟨b.balance + pnl⟩

/-- `Balance.calculate_quantity` (parameterised form of
`src/main/model/balance/__init__.py`): `initial_margin = balance * size;
quantity = initial_margin * leverage / entry_price`. -/
def Balance.calculate_quantity (b : Balance) (entry_price size : ℚ) (leverage : ℤ) : ℚ :=
  b.balance * size * (leverage : ℚ) / entry_price

/-- Fuel-bounded search for the least number of factors of `10` that make
`q` integral. -/
def decimal_places_go : ℕ → ℚ → ℕ
  | 0, _ => 0
  | fuel + 1, q => if q.den = 1 then 0 else decimal_places_go fuel (q * 10) + 1

/-- `utils.decimal_places`: the number of digits after the decimal point in
the decimal representation of the number — the least `n` with `q * 10^n`
integral (every float admits such an `n`, far below the fuel bound; Python's
`str` prints an integral float with a trailing `.0`, reporting `1` there,
but rounding an exact value at extra digits is the identity, so no rounding
result differs). -/
def decimal_places (q : ℚ) : ℕ := decimal_places_go 100 q

/-- Round-half-to-even to the nearest integer, the tie-breaking rule of
Python's builtin `round`. -/
def roundHalfEven (x : ℚ) : ℤ :=
  let n := Int.floor x
  let frac := x - (n : ℚ)
  if frac < 1 / 2 then n
  else if 1 / 2 < frac then n + 1
  else if n % 2 = 0 then n else n + 1

/-- Python's `round(x, d)` for nonnegative `d`: round-half-to-even at `d`
decimal digits. -/
def pyRound (x : ℚ) (d : ℕ) : ℚ := (roundHalfEven (x * 10 ^ d) : ℚ) / 10 ^ d

/-- Python's `int(x)` on a float: truncation toward zero. -/
def pyInt (q : ℚ) : ℤ := if 0 ≤ q then Int.floor q else Int.ceil q

/-- Per-symbol exchange filter, from `models.py` (`Filter`). -/
structure Filter where
  tick_size : ℚ
  step_size : ℚ
  min_notional : ℚ
  deriving DecidableEq

/-- Exchange rules per symbol, from `models.py` (`ExchangeInfo`): a map from
symbol to its filter. -/
structure ExchangeInfo where
  filters : List (String × Filter)

/-- `ExchangeInfo._get_filter`: lookup; a missing symbol raises `KeyError`
in the source, modelled as `none`. -/
def ExchangeInfo.get_filter (e : ExchangeInfo) (symbol : String) : Option Filter :=
  e.filters.lookup symbol

/-- `ExchangeInfo._round_to_precision(value, reference)`: return `value`
unchanged when it already has as many decimal places as `reference`,
otherwise `round(value, decimal_places(reference))`. -/
def round_to_precision (value reference : ℚ) : ℚ :=
  let decimals := decimal_places reference
  if decimals = decimal_places value then value else pyRound value decimals

/-- `ExchangeInfo.to_entry_price`: `_round_to_precision(initial_price,
tick_size)` for the symbol's filter. -/
def ExchangeInfo.to_entry_price (e : ExchangeInfo) (symbol : String) (initial_price : ℚ) :
    Option ℚ :=
  (e.get_filter symbol).map fun f => round_to_precision initial_price f.tick_size

/-- `ExchangeInfo._calculate_notional` of
`src/main/model/exchange_info/__init__.py`: conservative notional
`quantity * (price * factor)` with
`factor = 1 - max(TAKE_PROFIT, STOP_LOSS) / leverage` (the bracket
worst-case factor). The two bracket fractions and the leverage are
configuration values, passed here as parameters. -/
def calculate_notional (entry_quantity entry_price takeProfit stopLoss : ℚ)
    (leverage : ℤ) : ℚ :=
  let max_tpsl := max takeProfit stopLoss
  let factor := 1 - max_tpsl / (leverage : ℚ)
  entry_quantity * (entry_price * factor)

/-- `ExchangeInfo._is_notional_enough`: the conservative notional must reach
the filter's `min_notional`. -/
def is_notional_enough (f : Filter) (entry_quantity entry_price takeProfit stopLoss : ℚ)
    (leverage : ℤ) : Bool :=
  decide (calculate_notional entry_quantity entry_price takeProfit stopLoss leverage
    ≥ f.min_notional)

/-- `ExchangeInfo.to_entry_quantity` of
`src/main/model/exchange_info/__init__.py`: compute the raw quantity from
the balance, truncate to a multiple of `step_size`
(`round(int(q / step) * step, decimals)`), then keep it only when the
conservative notional reaches `min_notional`, else return `0.0`. -/
def ExchangeInfo.to_entry_quantity (e : ExchangeInfo) (symbol : String)
    (entry_price size : ℚ) (leverage : ℤ) (balance : Balance)
    (takeProfit stopLoss : ℚ) : Option ℚ :=
  (e.get_filter symbol).map fun f =>
    let decimals := decimal_places f.step_size
    let initial_quantity := balance.calculate_quantity entry_price size leverage
    let entry_quantity :=
      pyRound ((pyInt (initial_quantity / f.step_size) : ℚ) * f.step_size) decimals
    if is_notional_enough f entry_quantity entry_price takeProfit stopLoss leverage then
      entry_quantity
    else 0

/-- An open position, from `models.py` (`Position`). -/
structure Position where
  symbol : String
  price : ℚ
  amount : ℚ
  side : PositionSide
  leverage : ℤ
  break_even_price : ℚ
  deriving DecidableEq

/-- `Position` construction including `__post_init__`: the amount is stored
as `abs(amount)` and the break-even price defaults to the entry price. -/
def Position.mk_init (symbol : String) (price amount : ℚ) (side : PositionSide)
    (leverage : ℤ) : Position :=
  { symbol := symbol, price := price, amount := |amount|, side := side,
    leverage := leverage, break_even_price := price }

/-- `Position.is_long`: side is BUY. -/
def Position.is_long (p : Position) : Bool := p.side = PositionSide.BUY

/-- `Position.is_short`: side is SELL. -/
def Position.is_short (p : Position) : Bool := p.side = PositionSide.SELL

/-- `Position.initial_margin`: `amount * price / leverage`. -/
def Position.initial_margin (p : Position) : ℚ := p.amount * p.price / (p.leverage : ℚ)

/-- `Position.simple_pnl(target_price)`: signed price difference (by side)
times the amount. -/
def Position.simple_pnl (p : Position) (target_price : ℚ) : ℚ :=
  (if p.is_long then target_price - p.price else p.price - target_price) * p.amount

/-- `OrderList.find_by_type`: first order of the given type, if any. -/
def find_by_type (orders : List Order) (t : OrderType) : Option Order :=
  orders.find? fun o => decide (o.type = t)

/-- `OrderList.remove_expired_orders_backtesting(time)` of
`src/main/model/order/order_list.py`: the loop calls `self.clear()` when it
meets an expired LIMIT order, so the whole list becomes empty as soon as any
LIMIT order is expired; otherwise the list is left untouched. -/
def remove_expired_orders_backtesting (orders : List Order) (time_ms : ℤ) : List Order :=
  if orders.any (fun o => decide (o.type = OrderType.LIMIT) && o.is_expired time_ms) then
    []
  else orders

/-- Mutable engine state threaded through the backtest runner: the balance,
one symbol's order list and that symbol's position list. -/
structure EngineState where
  balance : Balance
  orders : List Order
  positions : List Position

/-- `Backtesting._filled_orders`: the bar's filled orders, in resting-list
order. -/
def filled_orders (orders : List Order) (high low : ℚ) : List Order :=
  orders.filter fun o => o.is_filled high low

/-- `Backtesting._open_position` of `src/main/runner/backtesting/__init__.py`:
build the position from the entry order, drop the entry order from the list,
replace the position list by the single new position, and debit the initial
margin from the balance. -/
def open_position (s : EngineState) (order : Order) (leverage : ℤ) : EngineState :=
  let position :=
    Position.mk_init order.symbol order.price order.quantity order.side leverage
  { balance := s.balance.add_pnl (-position.initial_margin),
    orders := s.orders.filter fun o => decide (o.order_id ≠ order.order_id),
    positions := [position] }

/-- `Backtesting._close_position`: realize `simple_pnl` at the exit order's
price, credit `pnl + initial_margin` to the balance, clear the symbol's
positions and clear all its remaining orders; the realized pnl is returned. -/
def close_position (s : EngineState) (position : Position) (order : Order) :
    ℚ × EngineState :=
  let pnl := position.simple_pnl order.price
  let margin := position.initial_margin
  (pnl,
    { balance := s.balance.add_pnl (pnl + margin), orders := [], positions := [] })

/-- Loop body of `Backtesting._eval_orders`, recursing over the bar's filled
orders. The two counters mirror the test-result counters of the source: a
hit is recorded on each position open, a trade on each position close, and
the close branch returns immediately (Python `return`). -/
def eval_orders_go (leverage : ℤ) :
    List Order → EngineState → ℕ → ℕ → EngineState × ℕ × ℕ
  | [], s, hits, trades => (s, hits, trades)
  | o :: rest, s, hits, trades =>
    let c := s.positions.isEmpty && o.is_type [OrderType.LIMIT]
    let s1 := if c then open_position s o leverage else s
    let hits1 := if c then hits + 1 else hits
    match s1.positions.head? with
    | some position =>
      if o.is_type
          [OrderType.TAKE_PROFIT_MARKET, OrderType.STOP_MARKET, OrderType.MARKET] then
        ((close_position s1 position o).2, hits1, trades + 1)
      else
        eval_orders_go leverage rest s1 hits1 trades
    | none => eval_orders_go leverage rest s1 hits1 trades

/-- `Backtesting._eval_orders(symbol, high, low, time)`: run the loop body
over the bar's filled orders, starting from zero hit/trade counters for this
bar. -/
def eval_orders (s : EngineState) (high low : ℚ) (leverage : ℤ) :
    EngineState × ℕ × ℕ :=
  eval_orders_go leverage (filled_orders s.orders high low) s 0 0

/-- Sample exchange info with a single symbol: tick size 0.1, step size
0.001, minimum notional 100. -/
def exInfo : ExchangeInfo := ⟨[("BTCUSDT", ⟨1 / 10, 1 / 1000, 100⟩)]⟩

/-- Sample resting LIMIT BUY entry order at price 100. -/
def exLimitBuy : Order :=
  ⟨"BTCUSDT", 1, OrderType.LIMIT, PositionSide.BUY, 100, 1, none⟩

/-- Sample resting STOP_MARKET SELL exit order at price 90. -/
def exStopSell : Order :=
  ⟨"BTCUSDT", 2, OrderType.STOP_MARKET, PositionSide.SELL, 90, 1, none⟩

/-- Sample LIMIT order whose good-till-date (5 ms) is already past at time
10 ms. -/
def exExpiredLimit : Order :=
  ⟨"BTCUSDT", 3, OrderType.LIMIT, PositionSide.BUY, 100, 1, some 5⟩

/-- Rounding to the nearest integer is the identity on integers: the
fractional part is zero, below the tie threshold. -/
theorem roundHalfEven_intCast (n : ℤ) : roundHalfEven (n : ℚ) = n := by
  simp only [roundHalfEven, Int.floor_intCast, sub_self]
  norm_num

/-- Python's `round(x, d)` leaves `x` unchanged whenever `x` already has at
most `d` decimal digits, i.e. `x * 10^d` is an integer. -/
theorem pyRound_eq_self (x : ℚ) (d : ℕ) (h : (x * 10 ^ d).den = 1) :
    pyRound x d = x := by
  have hx : ((x * 10 ^ d).num : ℚ) = x * 10 ^ d := (Rat.den_eq_one_iff _).1 h
  have hpow : ((10 : ℚ) ^ d) ≠ 0 := by positivity
  rw [pyRound, ← hx, roundHalfEven_intCast, hx, mul_div_cancel_right₀ _ hpow]

/-- Result of `pyRound` has at most `d` decimal digits. -/
theorem pyRound_den (x : ℚ) (d : ℕ) : (pyRound x d * 10 ^ d).den = 1 := by
  have hpow : ((10 : ℚ) ^ d) ≠ 0 := by positivity
  rw [pyRound, div_mul_cancel₀ _ hpow, Rat.den_intCast]

/-- One unfolding step of the decimal-place search. -/
theorem decimal_places_go_succ (fuel : ℕ) (q : ℚ) :
    decimal_places_go (fuel + 1) q =
      if q.den = 1 then 0 else decimal_places_go fuel (q * 10) + 1 := rfl

/-- The sample tick size `0.1` has one decimal place. -/
theorem dp_tenth : decimal_places ((1 : ℚ) / 10) = 1 := by
  have e1 : ((1 : ℚ) / 10) * 10 = 1 := by norm_num
  rw [decimal_places, show (100 : ℕ) = 99 + 1 from rfl, decimal_places_go_succ,
    if_neg (by norm_num), e1, show (99 : ℕ) = 98 + 1 from rfl, decimal_places_go_succ,
    if_pos (by norm_num)]

/-- The raw price `0.75` has two decimal places. -/
theorem dp_three_quarters : decimal_places ((3 : ℚ) / 4) = 2 := by
  have e1 : ((3 : ℚ) / 4) * 10 = 15 / 2 := by norm_num
  have e2 : ((15 : ℚ) / 2) * 10 = 75 := by norm_num
  rw [decimal_places, show (100 : ℕ) = 99 + 1 from rfl, decimal_places_go_succ,
    if_neg (by norm_num), e1, show (99 : ℕ) = 98 + 1 from rfl, decimal_places_go_succ,
    if_neg (by norm_num), e2, show (98 : ℕ) = 97 + 1 from rfl, decimal_places_go_succ,
    if_pos (by norm_num)]

/-- Python `round(0.75, 1)` returns `0.8`: the tie between `0.7` and `0.8`
is broken toward the even final digit, rounding up here. -/
theorem pyRound_tie : pyRound ((3 : ℚ) / 4) 1 = 4 / 5 := by
  have hfl : ⌊((3 : ℚ) / 4) * 10 ^ (1 : ℕ)⌋ = (7 : ℤ) := by
    rw [Int.floor_eq_iff]
    norm_num
  simp only [pyRound, roundHalfEven, hfl]
  norm_num

/-- Evaluation of `to_entry_price` on the sample symbol at the raw price
`0.75`: the result is `0.8`. -/
theorem to_entry_price_tie_eval :
    exInfo.to_entry_price "BTCUSDT" (3 / 4) = some (4 / 5) := by
  have hf : exInfo.get_filter "BTCUSDT" = some ⟨1 / 10, 1 / 1000, 100⟩ := rfl
  simp only [ExchangeInfo.to_entry_price, hf, Option.map_some', round_to_precision,
    dp_tenth, dp_three_quarters]
  rw [if_neg (by norm_num), pyRound_tie]

/-- C1: fill-matching matrix. MARKET orders are always filled; a LIMIT
order fills iff `price ≥ low` for BUY and iff `price ≤ high` for SELL; a
TAKE_PROFIT_MARKET order fills iff `price ≤ high` for SELL and iff
`price ≥ low` for BUY; a STOP_MARKET order fills iff `price ≥ low` for SELL
and iff `price ≤ high` for BUY. -/
theorem c1_fill_matrix (o : Order) (high low : ℚ) :
    (o.type = OrderType.MARKET → o.is_filled high low = true) ∧
    (o.type = OrderType.LIMIT → o.side = PositionSide.BUY →
      (o.is_filled high low = true ↔ o.price ≥ low)) ∧
    (o.type = OrderType.LIMIT → o.side = PositionSide.SELL →
      (o.is_filled high low = true ↔ o.price ≤ high)) ∧
    (o.type = OrderType.TAKE_PROFIT_MARKET → o.side = PositionSide.SELL →
      (o.is_filled high low = true ↔ o.price ≤ high)) ∧
    (o.type = OrderType.TAKE_PROFIT_MARKET → o.side = PositionSide.BUY →
      (o.is_filled high low = true ↔ o.price ≥ low)) ∧
    (o.type = OrderType.STOP_MARKET → o.side = PositionSide.SELL →
      (o.is_filled high low = true ↔ o.price ≥ low)) ∧
    (o.type = OrderType.STOP_MARKET → o.side = PositionSide.BUY →
      (o.is_filled high low = true ↔ o.price ≤ high)) := by
  refine ⟨fun h1 => by simp [Order.is_filled, Order.is_type, h1], fun h1 h2 => ?_,
    fun h1 h2 => ?_, fun h1 h2 => ?_, fun h1 h2 => ?_, fun h1 h2 => ?_,
    fun h1 h2 => ?_⟩ <;>
  simp [Order.is_filled, Order.is_type, h1, h2]

/-- C1 witness: the sample LIMIT BUY order at price 100 on the bar
`[80, 110]` fills, matching `price ≥ low`. -/
theorem c1_fill_matrix_witness :
    exLimitBuy.is_filled 110 80 = true ↔ (100 : ℚ) ≥ 80 :=
  (c1_fill_matrix exLimitBuy 110 80).2.1 rfl rfl

/-- C9: an order whose good-till-date is absent or zero is never expired,
whatever the current time. -/
theorem c9_no_gtd_never_expires (o : Order) (t : ℤ)
    (h : o.gtd = none ∨ o.gtd = some 0) : o.is_expired t = false := by
  rcases h with h | h <;> simp [Order.is_expired, h]

/-- C9 witness: the sample LIMIT BUY order (no expiry set) is not expired
even at a very late time. -/
theorem c9_no_gtd_never_expires_witness :
    exLimitBuy.is_expired 99999999999 = false :=
  c9_no_gtd_never_expires exLimitBuy 99999999999 (Or.inl rfl)

/-- C10: an order of a type outside MARKET, LIMIT, STOP_MARKET and
TAKE_PROFIT_MARKET (e.g. TRAILING_STOP_MARKET) is never considered filled,
on any bar, and the predicate is total (no exception). -/
theorem c10_unknown_type_not_filled (o : Order) (high low : ℚ)
    (h : o.type ∉ [OrderType.MARKET, OrderType.LIMIT, OrderType.STOP_MARKET,
      OrderType.TAKE_PROFIT_MARKET]) : o.is_filled high low = false := by
  simp only [List.mem_cons, List.not_mem_nil, or_false] at h
  push_neg at h
  obtain ⟨h1, h2, h3, h4⟩ := h
  simp [Order.is_filled, Order.is_type, h1, h2, h3, h4]

/-- C10 witness: a TRAILING_STOP_MARKET order is not filled on a wide bar
that contains its price. -/
theorem c10_unknown_type_not_filled_witness :
    (⟨"BTCUSDT", 4, OrderType.TRAILING_STOP_MARKET, PositionSide.SELL, 100, 1,
      none⟩ : Order).is_filled 1000 0 = false :=
  c10_unknown_type_not_filled _ 1000 0 (by decide)

/-- C2 counterexample: starting from `Balance(0)` (stored as `0`), applying
the delta `1/200` (half a cent) leaves the stored balance at `1/200`, which
is not `floor((0 + 1/200) * 100) / 100 = 0` and is strictly larger than it:
`add_pnl` does not re-floor, so the stored balance exceeds the cent-floored
value. -/
theorem c2_cent_floor_counterexample :
    ((Balance.mk_init 0).add_pnl (1 / 200)).balance ≠
      floor2 ((Balance.mk_init 0).balance + 1 / 200) ∧
    floor2 ((Balance.mk_init 0).balance + 1 / 200) <
      ((Balance.mk_init 0).add_pnl (1 / 200)).balance := by
  have h2 : ((1 : ℚ) / 200) * 100 = 1 / 2 := by norm_num
  constructor <;>
  · simp only [Balance.mk_init, Balance.add_pnl, floor2, zero_mul, Int.floor_zero,
      Int.cast_zero, zero_div, zero_add, h2]
    norm_num

/-- C2 amended: only construction floors to cent precision (and flooring
never increases the amount); `add_pnl` applies the delta exactly, leaving
the stored balance at `b + d` with no re-flooring. -/
theorem c2_amended (b : Balance) (d x : ℚ) :
    (b.add_pnl d).balance = b.balance + d ∧
    (Balance.mk_init x).balance = floor2 x ∧ floor2 x ≤ x := by
  refine ⟨rfl, rfl, ?_⟩
  have h := Int.floor_le (x * 100)
  rw [floor2]
  linarith

/-- C3 counterexample: with tick size `0.1`, the raw price `0.75` is rounded
to `0.8` (Python half-to-even rounding at one decimal digit), which exceeds
the input — the result is neither the largest tick multiple below the input
(`0.7`) nor bounded by the input. -/
theorem c3_round_down_counterexample :
    exInfo.to_entry_price "BTCUSDT" (3 / 4) = some (4 / 5) ∧
    ¬ ((4 : ℚ) / 5 ≤ 3 / 4) :=
  ⟨to_entry_price_tie_eval, by norm_num⟩

/-- Idempotence of `_round_to_precision` in its first argument. -/
theorem round_to_precision_idem (v t : ℚ) :
    round_to_precision (round_to_precision v t) t = round_to_precision v t := by
  by_cases h1 : decimal_places t = decimal_places v
  · simp only [round_to_precision, if_pos h1]
  · have hv : round_to_precision v t = pyRound v (decimal_places t) := by
      simp only [round_to_precision, if_neg h1]
    rw [hv]
    by_cases h2 : decimal_places t = decimal_places (pyRound v (decimal_places t))
    · simp only [round_to_precision, if_pos h2]
    · simp only [round_to_precision, if_neg h2]
      exact pyRound_eq_self _ _ (pyRound_den v (decimal_places t))

/-- C3 amended: `to_entry_price` returns the price unchanged when its
decimal-place count already equals the tick size's, and otherwise applies
Python's half-to-even rounding at the tick size's decimal places — so the
result may exceed the input and need not be a tick multiple — but the
operation is idempotent: rounding an already-rounded price returns it
unchanged. -/
theorem c3_amended (e : ExchangeInfo) (symbol : String) (f : Filter) (p r : ℚ)
    (hf : e.get_filter symbol = some f)
    (hr : e.to_entry_price symbol p = some r) :
    e.to_entry_price symbol r = some r := by
  rw [ExchangeInfo.to_entry_price, hf] at hr ⊢
  have hr' : round_to_precision p f.tick_size = r := by simpa using hr
  subst hr'
  simpa using round_to_precision_idem p f.tick_size

/-- C3 amended witness: rounding the already-rounded price `0.8` for the
sample symbol returns `0.8` again. -/
theorem c3_amended_witness :
    exInfo.to_entry_price "BTCUSDT" (4 / 5) = some (4 / 5) :=
  c3_amended exInfo "BTCUSDT" ⟨1 / 10, 1 / 1000, 100⟩ (3 / 4) (4 / 5) rfl
    to_entry_price_tie_eval

/-- C5 counterexample: at time 10 the LIMIT order with good-till-date 5 is
expired, and the expiry pass then clears the whole list — the sibling
STOP_MARKET order is removed although it is not expired at 10, contradicting
"every order that is not expired at t remains in the list unchanged". -/
theorem c5_expiry_counterexample :
    remove_expired_orders_backtesting [exExpiredLimit, exStopSell] 10 = [] ∧
    exStopSell.is_expired 10 = false := by
  constructor <;> decide

/-- C5 amended: the expiry pass looks only at LIMIT orders; if some LIMIT
order's good-till-date is set and earlier than the bar time, the entire
order list for the symbol is cleared — expired and non-expired orders alike
— without executing any of them; if no LIMIT order is expired (in
particular, even when a non-LIMIT order's good-till-date is past), the list
is left completely unchanged. -/
theorem c5_amended (orders : List Order) (t : ℤ) :
    ((∃ o ∈ orders, o.type = OrderType.LIMIT ∧ o.is_expired t = true) →
      remove_expired_orders_backtesting orders t = []) ∧
    ((∀ o ∈ orders, o.type = OrderType.LIMIT → o.is_expired t = false) →
      remove_expired_orders_backtesting orders t = orders) := by
  constructor
  · rintro ⟨o, ho, h1, h2⟩
    rw [remove_expired_orders_backtesting, if_pos]
    rw [List.any_eq_true]
    exact ⟨o, ho, by simp [h1, h2]⟩
  · intro h
    rw [remove_expired_orders_backtesting, if_neg]
    rw [List.any_eq_true]
    rintro ⟨o, ho, hb⟩
    simp only [Bool.and_eq_true, decide_eq_true_eq] at hb
    exact absurd (h o ho hb.1) (by simp [hb.2])

/-- C5 amended witness: an expired LIMIT clears the sample list; with no
expired LIMIT the sample list survives intact. -/
theorem c5_amended_witness :
    remove_expired_orders_backtesting [exExpiredLimit, exStopSell] 10 = [] ∧
    remove_expired_orders_backtesting [exLimitBuy, exStopSell] 10 =
      [exLimitBuy, exStopSell] :=
  ⟨(c5_amended [exExpiredLimit, exStopSell] 10).1
      ⟨exExpiredLimit, by simp, rfl, by decide⟩,
    (c5_amended [exLimitBuy, exStopSell] 10).2 (by decide)⟩

/-- C4 counterexample: with no open position, a resting LIMIT BUY entry at
100 and its bracket STOP_MARKET SELL exit at 90 both fill on the bar
`[80, 110]`; `eval_orders` opens the position on the entry fill and then
closes it on the exit fill within the same bar — one hit and one trade, so
an open and a close both occur in a single bar for one symbol. -/
theorem c4_single_transition_counterexample :
    (eval_orders ⟨⟨1000⟩, [exLimitBuy, exStopSell], []⟩ 110 80 10).2 = (1, 1) := by
  decide

/-- While the position list is nonempty the loop body never opens a
position: the hit counter comes back unchanged. -/
theorem eval_orders_go_hits_of_nonempty (leverage : ℤ) (l : List Order)
    (s : EngineState) (hits trades : ℕ) (h : s.positions ≠ []) :
    (eval_orders_go leverage l s hits trades).2.1 = hits := by
  induction l generalizing s hits trades with
  | nil => rfl
  | cons o rest ih =>
    obtain ⟨bal, ords, poss⟩ := s
    cases poss with
    | nil => exact absurd rfl h
    | cons p ps =>
      simp only [eval_orders_go, List.isEmpty_cons, Bool.false_and, Bool.false_eq_true,
        if_false, List.head?_cons]
      by_cases hex : o.is_type
          [OrderType.TAKE_PROFIT_MARKET, OrderType.STOP_MARKET, OrderType.MARKET]
      · simp [hex]
      · simp only [hex, Bool.false_eq_true, if_false]
        exact ih ⟨bal, ords, p :: ps⟩ hits trades (by simp)

/-- The loop opens at most one position per bar: the hit counter grows by
at most one. -/
theorem eval_orders_go_hits_le (leverage : ℤ) (l : List Order) (s : EngineState)
    (hits trades : ℕ) : (eval_orders_go leverage l s hits trades).2.1 ≤ hits + 1 := by
  induction l generalizing s hits trades with
  | nil => exact Nat.le_succ hits
  | cons o rest ih =>
    obtain ⟨bal, ords, poss⟩ := s
    cases poss with
    | cons p ps =>
      simp only [eval_orders_go, List.isEmpty_cons, Bool.false_and, Bool.false_eq_true,
        if_false, List.head?_cons]
      by_cases hex : o.is_type
          [OrderType.TAKE_PROFIT_MARKET, OrderType.STOP_MARKET, OrderType.MARKET]
      · simp [hex, Nat.le_succ]
      · simp only [hex, Bool.false_eq_true, if_false]
        exact ih ⟨bal, ords, p :: ps⟩ hits trades
    | nil =>
      simp only [eval_orders_go, List.isEmpty_nil, Bool.true_and]
      by_cases hc : o.is_type [OrderType.LIMIT]
      · simp only [hc, if_true]
        have hpos : (open_position ⟨bal, ords, []⟩ o leverage).positions ≠ [] := by
          simp [open_position]
        rw [show (open_position ⟨bal, ords, []⟩ o leverage).positions =
            [Position.mk_init o.symbol o.price o.quantity o.side leverage] from rfl]
        simp only [List.head?_cons]
        by_cases hex : o.is_type
            [OrderType.TAKE_PROFIT_MARKET, OrderType.STOP_MARKET, OrderType.MARKET]
        · simp [hex]
        · simp only [hex, Bool.false_eq_true, if_false]
          exact le_of_eq (eval_orders_go_hits_of_nonempty leverage rest _ _ _ hpos)
      · simp only [hc, Bool.false_eq_true, if_false, List.head?_nil]
        exact ih ⟨bal, ords, []⟩ hits trades

/-- The loop closes at most one position per bar: a close returns
immediately, so the trade counter grows by at most one. -/
theorem eval_orders_go_trades_le (leverage : ℤ) (l : List Order) (s : EngineState)
    (hits trades : ℕ) : (eval_orders_go leverage l s hits trades).2.2 ≤ trades + 1 := by
  induction l generalizing s hits trades with
  | nil => exact Nat.le_succ trades
  | cons o rest ih =>
    simp only [eval_orders_go]
    rcases hh : (if s.positions.isEmpty && o.is_type [OrderType.LIMIT] then
        open_position s o leverage else s).positions.head? with _ | p
    · exact ih _ _ _
    · by_cases hex : o.is_type
          [OrderType.TAKE_PROFIT_MARKET, OrderType.STOP_MARKET, OrderType.MARKET]
      · simp [hex]
      · simp only [hex, Bool.false_eq_true, if_false]
        exact ih _ _ _

/-- C4 amended: per symbol and per bar, at most one position open and at
most one position close occur; the bar's filled orders are processed in
resting-list order (the strategy rests the entry LIMIT before its bracket
orders) and processing stops after the first exit order that successfully
closes the position — but a position opened by this bar's entry fill can be
closed by a later exit fill of the same bar. -/
theorem c4_amended (s : EngineState) (high low : ℚ) (leverage : ℤ) :
    (eval_orders s high low leverage).2.1 ≤ 1 ∧
    (eval_orders s high low leverage).2.2 ≤ 1 :=
  ⟨eval_orders_go_hits_le leverage (filled_orders s.orders high low) s 0 0,
    eval_orders_go_trades_le leverage (filled_orders s.orders high low) s 0 0⟩

/-- Sample open long position: 1 unit at entry price 100, leverage 10. -/
def exPosition : Position := Position.mk_init "BTCUSDT" 100 1 PositionSide.BUY 10

/-- C7: close semantics. Closing realizes `(exit - entry) * amount` for a
long and `(entry - exit) * amount` for a short, credits
`pnl + initial_margin` (with `initial_margin = amount * entry_price /
leverage`) back to the balance, empties the symbol's position list and
clears all its remaining resting orders. -/
theorem c7_close_semantics (s : EngineState) (p : Position) (o : Order) :
    ((p.is_long = true →
        (close_position s p o).1 = (o.price - p.price) * p.amount) ∧
      (p.is_short = true →
        (close_position s p o).1 = (p.price - o.price) * p.amount)) ∧
    (close_position s p o).2.balance.balance =
      s.balance.balance + (close_position s p o).1 +
        p.amount * p.price / (p.leverage : ℚ) ∧
    (close_position s p o).2.positions = [] ∧
    (close_position s p o).2.orders = [] := by
  refine ⟨⟨fun hl => ?_, fun hs => ?_⟩, ?_, rfl, rfl⟩
  · simp [close_position, Position.simple_pnl, hl]
  · simp only [Position.is_short, decide_eq_true_eq] at hs
    simp [close_position, Position.simple_pnl, Position.is_long, hs]
  · simp only [close_position, Balance.add_pnl, Position.initial_margin]
    ring

/-- C7 witness: closing the sample long position with the exit order at 90
realizes `(90 - 100) * 1`. -/
theorem c7_close_semantics_witness :
    exPosition.is_long = true ∧
    (close_position ⟨⟨900⟩, [exStopSell], [exPosition]⟩ exPosition exStopSell).1 =
      (exStopSell.price - exPosition.price) * exPosition.amount :=
  ⟨rfl,
    (c7_close_semantics ⟨⟨900⟩, [exStopSell], [exPosition]⟩ exPosition exStopSell).1.1
      rfl⟩

/-- C8: round-trip. From any state with no open position and balance `b`,
filling an entry order of quantity `Q > 0` at price `E > 0` with leverage
`L > 0` opens a single position and debits exactly the initial margin
`Q * E / L`; immediately closing that position with an exit fill at the
same price `E` yields zero pnl and restores the balance to exactly `b`. -/
theorem c8_round_trip (b Q E : ℚ) (L : ℤ) (s : EngineState) (entry exitO : Order)
    (hQ : 0 < Q) (hL : 0 < L) (hE : 0 < E) (hbal : s.balance.balance = b)
    (hep : entry.price = E) (heq : entry.quantity = Q) (hxp : exitO.price = E) :
    ∃ p, (open_position s entry L).positions = [p] ∧
      (open_position s entry L).balance.balance = b - Q * E / (L : ℚ) ∧
      (close_position (open_position s entry L) p exitO).1 = 0 ∧
      (close_position (open_position s entry L) p exitO).2.balance.balance = b := by
  set p := Position.mk_init entry.symbol entry.price entry.quantity entry.side L with hp
  have hmargin : p.initial_margin = Q * E / (L : ℚ) := by
    simp only [hp, Position.initial_margin, Position.mk_init, hep, heq]
    rw [abs_of_pos hQ]
  have hpnl : p.simple_pnl exitO.price = 0 := by
    simp only [hp, Position.simple_pnl, Position.mk_init, hep, hxp]
    split <;> ring
  have hopen : (open_position s entry L).balance.balance = b - Q * E / (L : ℚ) := by
    simp only [open_position, Balance.add_pnl, ← hp, hmargin, hbal]
    ring
  refine ⟨p, rfl, hopen, ?_, ?_⟩
  · simp only [close_position]
    exact hpnl
  · simp only [close_position, Balance.add_pnl, hpnl, hmargin, hopen]
    ring

/-- Sample TAKE_PROFIT_MARKET exit order at the entry price 100. -/
def exTpAt100 : Order :=
  ⟨"BTCUSDT", 5, OrderType.TAKE_PROFIT_MARKET, PositionSide.SELL, 100, 1, none⟩

/-- C8 witness: opening 1 unit at 100 with leverage 10 from balance 1000
debits margin 10, and closing at 100 returns pnl 0 and balance 1000. -/
theorem c8_round_trip_witness :
    (0 : ℚ) < 1 ∧
    ∃ p, (open_position ⟨⟨1000⟩, [exLimitBuy], []⟩ exLimitBuy 10).positions = [p] ∧
      (open_position ⟨⟨1000⟩, [exLimitBuy], []⟩ exLimitBuy 10).balance.balance =
        1000 - 1 * 100 / ((10 : ℤ) : ℚ) ∧
      (close_position (open_position ⟨⟨1000⟩, [exLimitBuy], []⟩ exLimitBuy 10) p
          exTpAt100).1 = 0 ∧
      (close_position (open_position ⟨⟨1000⟩, [exLimitBuy], []⟩ exLimitBuy 10) p
          exTpAt100).2.balance.balance = 1000 :=
  ⟨by norm_num,
    c8_round_trip 1000 1 100 10 ⟨⟨1000⟩, [exLimitBuy], []⟩ exLimitBuy exTpAt100
      (by norm_num) (by norm_num) (by norm_num) rfl rfl rfl rfl⟩

/-- An integer multiple of an integral rational is integral. -/
theorem int_mul_den_one (k : ℤ) (x : ℚ) (h : x.den = 1) : ((k : ℚ) * x).den = 1 := by
  obtain ⟨m, hm⟩ : ∃ m : ℤ, (m : ℚ) = x := ⟨x.num, (Rat.den_eq_one_iff x).1 h⟩
  rw [← hm, ← Int.cast_mul, Rat.den_intCast]

/-- The sample step size `0.001` has three decimal places. -/
theorem dp_thousandth : decimal_places ((1 : ℚ) / 1000) = 3 := by
  have e1 : ((1 : ℚ) / 1000) * 10 = 1 / 100 := by norm_num
  have e2 : ((1 : ℚ) / 100) * 10 = 1 / 10 := by norm_num
  have e3 : ((1 : ℚ) / 10) * 10 = 1 := by norm_num
  rw [decimal_places, show (100 : ℕ) = 99 + 1 from rfl, decimal_places_go_succ,
    if_neg (by norm_num), e1, show (99 : ℕ) = 98 + 1 from rfl, decimal_places_go_succ,
    if_neg (by norm_num), e2, show (98 : ℕ) = 97 + 1 from rfl, decimal_places_go_succ,
    if_neg (by norm_num), e3, show (97 : ℕ) = 96 + 1 from rfl, decimal_places_go_succ,
    if_pos (by norm_num)]

/-- C6: notional sizing. For a symbol with a loaded filter, a positive step
size that is a finite decimal, and a nonnegative balance-derived raw
quantity, `to_entry_quantity` truncates the raw quantity down to the
largest step-size multiple not exceeding it and returns that quantity
exactly when the conservative notional `quantity * entry_price *
worst_case_factor` reaches `min_notional` — the boundary case of exact
equality is accepted — and returns `0` (a normal skip signal, not an
exception) otherwise. -/
theorem c6_notional_sizing (e : ExchangeInfo) (symbol : String) (f : Filter)
    (entry_price size : ℚ) (leverage : ℤ) (balance : Balance)
    (takeProfit stopLoss : ℚ)
    (hf : e.get_filter symbol = some f)
    (hstep : 0 < f.step_size)
    (hdec : (f.step_size * 10 ^ decimal_places f.step_size).den = 1)
    (hraw : 0 ≤ balance.calculate_quantity entry_price size leverage) :
    ∃ k : ℤ,
      (k : ℚ) * f.step_size ≤ balance.calculate_quantity entry_price size leverage ∧
      balance.calculate_quantity entry_price size leverage <
        (k : ℚ) * f.step_size + f.step_size ∧
      e.to_entry_quantity symbol entry_price size leverage balance takeProfit
          stopLoss =
        some (if f.min_notional ≤ calculate_notional ((k : ℚ) * f.step_size)
              entry_price takeProfit stopLoss leverage
          then (k : ℚ) * f.step_size else 0) ∧
      (calculate_notional ((k : ℚ) * f.step_size) entry_price takeProfit stopLoss
            leverage = f.min_notional →
        e.to_entry_quantity symbol entry_price size leverage balance takeProfit
          stopLoss = some ((k : ℚ) * f.step_size)) := by
  set raw := balance.calculate_quantity entry_price size leverage with hrawdef
  have hq : pyRound ((pyInt (raw / f.step_size) : ℚ) * f.step_size)
      (decimal_places f.step_size) = (⌊raw / f.step_size⌋ : ℚ) * f.step_size := by
    rw [pyInt, if_pos (div_nonneg hraw hstep.le)]
    apply pyRound_eq_self
    rw [mul_assoc]
    exact int_mul_den_one _ _ hdec
  have heqn : e.to_entry_quantity symbol entry_price size leverage balance takeProfit
      stopLoss =
      some (if f.min_notional ≤ calculate_notional
            ((⌊raw / f.step_size⌋ : ℚ) * f.step_size) entry_price takeProfit stopLoss
            leverage
        then (⌊raw / f.step_size⌋ : ℚ) * f.step_size else 0) := by
    rw [ExchangeInfo.to_entry_quantity, hf, Option.map_some']
    simp only [← hrawdef, hq, is_notional_enough, ge_iff_le, decide_eq_true_eq]
  refine ⟨⌊raw / f.step_size⌋, ?_, ?_, heqn, fun hcalc => ?_⟩
  · calc (⌊raw / f.step_size⌋ : ℚ) * f.step_size
        ≤ raw / f.step_size * f.step_size :=
          mul_le_mul_of_nonneg_right (Int.floor_le _) hstep.le
      _ = raw := div_mul_cancel₀ _ hstep.ne'
  · have h2 := mul_lt_mul_of_pos_right (Int.lt_floor_add_one (raw / f.step_size)) hstep
    rw [div_mul_cancel₀ _ hstep.ne', add_mul, one_mul] at h2
    exact_mod_cast h2
  · rw [heqn, if_pos (le_of_eq hcalc.symm)]

/-- C6 witness: balance 10000, size fraction 0.05, leverage 10 at entry
price 50000 with step size 0.001: the raw quantity 0.1 is already a step
multiple and its conservative notional 4950 clears the minimum 100, so the
order is accepted. -/
theorem c6_notional_sizing_witness :
    (0 : ℚ) < 1 / 1000 ∧
    ∃ k : ℤ,
      (k : ℚ) * (1 / 1000) ≤
        Balance.calculate_quantity ⟨10000⟩ 50000 (1 / 20) 10 ∧
      Balance.calculate_quantity ⟨10000⟩ 50000 (1 / 20) 10 <
        (k : ℚ) * (1 / 1000) + 1 / 1000 ∧
      exInfo.to_entry_quantity "BTCUSDT" 50000 (1 / 20) 10 ⟨10000⟩ (1 / 10)
          (1 / 20) =
        some (if (100 : ℚ) ≤ calculate_notional ((k : ℚ) * (1 / 1000)) 50000
              (1 / 10) (1 / 20) 10
          then (k : ℚ) * (1 / 1000) else 0) ∧
      (calculate_notional ((k : ℚ) * (1 / 1000)) 50000 (1 / 10) (1 / 20) 10 =
            100 →
        exInfo.to_entry_quantity "BTCUSDT" 50000 (1 / 20) 10 ⟨10000⟩ (1 / 10)
          (1 / 20) = some ((k : ℚ) * (1 / 1000))) :=
  ⟨by norm_num,
    c6_notional_sizing exInfo "BTCUSDT" ⟨1 / 10, 1 / 1000, 100⟩ 50000 (1 / 20) 10
      ⟨10000⟩ (1 / 10) (1 / 20) rfl (by norm_num)
      (by
        show ((1 : ℚ) / 1000 * 10 ^ decimal_places ((1 : ℚ) / 1000)).den = 1
        rw [dp_thousandth]
        norm_num)
      (by norm_num [Balance.calculate_quantity])⟩

end OpenBinancian
